import Mathlib

/-!
Verification of the moving-average crossover trading bot
(`coinbase_trader.py`): the bounded price-history buffer, the signal
engine (`analyze_market`), the trade executor (`execute_trade`,
`can_trade`), startup (`CoinbaseTrader.__init__`, `main`) and the
per-cycle control flow (`run_trading_cycle`).

Modelling conventions:
* Python floats are modelled exactly as rationals (`ℚ`); the source's
  arithmetic (sums, divisions, comparisons) is translated verbatim.
* External collaborators (the Coinbase client) are parameters: a
  ticker fetch is a supplied `Except` value (it can raise), order
  placement is a supplied function from the request to an `Except`
  (it can raise), balances are a supplied record.
* A Python method that mutates `self` is translated to a function
  returning the new state; a method that only reads `self` takes the
  state as a plain argument.
* Exceptions caught inside a function do not escape its translation,
  so such a function is total; an uncaught exception is an explicit
  error constructor in the result type.
-/

namespace Trader

/-- Configuration constant `MOVING_AVG_SHORT = 12` from the source. -/
def MOVING_AVG_SHORT : Nat := 12

/-- Configuration constant `MOVING_AVG_LONG = 26` from the source. -/
def MOVING_AVG_LONG : Nat := 26

/-- Configuration constant `MIN_EUR_TRADE = 10` from the source. -/
def MIN_EUR_TRADE : ℚ := 10

/-- Configuration constant `MIN_ETH_TRADE = 0.01` from the source. -/
def MIN_ETH_TRADE : ℚ := 1 / 100

/-- Configuration constant `TRADE_PERCENTAGE = 0.9` from the source. -/
def TRADE_PERCENTAGE : ℚ := 9 / 10

/-- One entry of `self.price_history[pair]`: the tuple
`(timestamp, price)` appended by `get_current_prices`.  Timestamps are
abstract naturals (the code only stores them). -/
structure PriceSample where
  timestamp : Nat
  price : ℚ
deriving DecidableEq, Repr

/-- The mutable state of a `CoinbaseTrader` instance: the two
per-pair price histories and the running `total_profit_loss`. -/
structure TraderState where
  eth_history : List PriceSample
  btc_history : List PriceSample
  total_profit_loss : ℚ
deriving DecidableEq, Repr

/-- Python's `l[-n:]`: the last `n` elements of `l` (all of `l` when it
is shorter than `n`), in order. -/
def takeLast {α : Type} (n : Nat) (l : List α) : List α :=
  l.drop (l.length - n)

/-- `max_history = max(MOVING_AVG_SHORT, MOVING_AVG_LONG) + 5` from
`get_current_prices` (= 31). -/
def max_history : Nat := max MOVING_AVG_SHORT MOVING_AVG_LONG + 5

/-- The history-updating part of `get_current_prices`: append the
fetched `(timestamp, price)` sample to both pair histories, then, when
the ETH-EUR history exceeds `max_history`, truncate both histories to
their last `max_history` entries (the source gates both truncations on
the ETH-EUR length alone). -/
def recordPrices (st : TraderState) (ts : Nat) (ethPrice btcPrice : ℚ) :
    TraderState :=
  let eth := st.eth_history ++ [⟨ts, ethPrice⟩]
  let btc := st.btc_history ++ [⟨ts, btcPrice⟩]
  if eth.length > max_history then
    { st with
      eth_history := takeLast max_history eth
      btc_history := takeLast max_history btc }
  else
    { st with eth_history := eth, btc_history := btc }

/-- The dictionary returned by `analyze_market`: signal string
(`"BUY"`, `"SELL"` or `"HOLD"`), the two moving averages, and the most
recent recorded price. -/
structure Analysis where
  signal : String
  short_ma : ℚ
  long_ma : ℚ
  current_price : ℚ
deriving DecidableEq, Repr

/-- `analyze_market`: `None` when the ETH-EUR history is shorter than
`MOVING_AVG_LONG`; otherwise the crossover signal computed from the
means of the trailing `MOVING_AVG_SHORT` and `MOVING_AVG_LONG` prices
(`eth_prices[-12:]`, `eth_prices[-26:]`), together with both averages
and the latest price `eth_prices[-1]`.  The method reads
`self.price_history` and assigns nothing, so it takes the state as a
read-only argument. -/
def analyze_market (st : TraderState) : Option Analysis :=
  if st.eth_history.length < MOVING_AVG_LONG then
    none
  else
    let eth_prices := st.eth_history.map fun s => s.price
    let short_ma := (takeLast MOVING_AVG_SHORT eth_prices).sum / (MOVING_AVG_SHORT : ℚ)
    let long_ma := (takeLast MOVING_AVG_LONG eth_prices).sum / (MOVING_AVG_LONG : ℚ)
    let signal :=
      if short_ma > long_ma then "BUY"
      else if short_ma < long_ma then "SELL"
      else "HOLD"
    some ⟨signal, short_ma, long_ma, eth_prices.getLast?.getD 0⟩

/-- One entry of the dictionary built by `get_account_balances`:
`balance`, `available` (the account id, kept only for debugging, is
irrelevant to every balance test and omitted). -/
structure Balance where
  balance : ℚ
  available : ℚ
deriving DecidableEq, Repr

/-- The balances dictionary: each of the three tracked currencies may
be absent (the code reads them with `balances.get(cur, {})`). -/
structure Balances where
  eur : Option Balance
  eth : Option Balance
  btc : Option Balance
deriving DecidableEq, Repr

/-- `balances.get('EUR', {}).get('available', 0)`. -/
def availEUR (b : Balances) : ℚ := (b.eur.map Balance.available).getD 0

/-- `balances.get('ETH', {}).get('available', 0)`. -/
def availETH (b : Balances) : ℚ := (b.eth.map Balance.available).getD 0

/-- `can_trade`: the coarse liquidity gate
`eur_available > MIN_EUR_TRADE or eth_available > MIN_ETH_TRADE`
(balances come from the external `get_account_balances`, supplied as
an argument). -/
def can_trade (balances : Balances) : Bool :=
  decide (availEUR balances > MIN_EUR_TRADE) ||
    decide (availETH balances > MIN_ETH_TRADE)

/-- An order record returned by the exchange on success; its contents
are opaque to the bot (it only logs and returns it). -/
structure Order where
  oid : Nat
deriving DecidableEq, Repr

/-- A call to `client.place_market_order` on `ETH-EUR`: either a
market buy spending `funds` EUR, or a market sell of `size` ETH —
exactly the two call shapes in `execute_trade`. -/
inductive OrderRequest where
  | buy (funds : ℚ)
  | sell (size : ℚ)
deriving DecidableEq, Repr

/-- `execute_trade(signal)`.  The external balances (from
`get_account_balances`), the exchange's response to an order request
(`place`, an `Except` since the call can raise) and the outcome of the
post-trade `get_current_prices` fetch in the sell branch (`fetch`:
timestamp and the two ticker prices, or an exception) are parameters.

Result: the returned value (`Some order` or `None`), the state after
the call, and the order request issued to the exchange, if any.

Faithful to the source: in the buy branch the profit/loss update sits
after `return order` and is therefore unreachable, so the state is
returned unchanged; in the sell branch a successful placement is
followed by a `get_current_prices` call (which appends to both
histories) and `total_profit_loss += eth_to_sell * current_price`; any
exception from placement or from that fetch is caught by the branch's
`except`, after which the function falls through and returns `None`
with the state unchanged. -/
def execute_trade (st : TraderState) (signal : String) (balances : Balances)
    (place : OrderRequest → Except String Order)
    (fetch : Except String (Nat × ℚ × ℚ)) :
    Option Order × TraderState × Option OrderRequest :=
  if signal = "BUY" ∧ availEUR balances > MIN_EUR_TRADE then
    let eur_to_use := availEUR balances * TRADE_PERCENTAGE
    match place (.buy eur_to_use) with
    | .ok order => (some order, st, some (.buy eur_to_use))
    | .error _ => (none, st, some (.buy eur_to_use))
  else if signal = "SELL" ∧ availETH balances > MIN_ETH_TRADE then
    let eth_to_sell := availETH balances * TRADE_PERCENTAGE
    match place (.sell eth_to_sell) with
    | .ok order =>
      match fetch with
      | .ok (ts, ethPrice, btcPrice) =>
        let st1 := recordPrices st ts ethPrice btcPrice
        let eur_received := eth_to_sell * ethPrice
        (some order,
         { st1 with total_profit_loss := st1.total_profit_loss + eur_received },
         some (.sell eth_to_sell))
      | .error _ => (none, st, some (.sell eth_to_sell))
    | .error _ => (none, st, some (.sell eth_to_sell))
  else
    (none, st, none)

/-- Python truthiness of an `os.getenv` result: `None` and the empty
string are falsy, every other string is truthy (this is what
`all([API_KEY, API_SECRET, API_PASSPHRASE])` tests). -/
def pyTruthy : Option String → Bool
  | none => false
  | some s => s != ""

/-- `CoinbaseTrader.__init__`: raise `ValueError` when
`not all([API_KEY, API_SECRET, API_PASSPHRASE])`, otherwise set up the
empty per-pair price history and `total_profit_loss = 0.0`. -/
def CoinbaseTrader_init (key secret passphrase : Option String) :
    Except String TraderState :=
  if !(pyTruthy key && pyTruthy secret && pyTruthy passphrase) then
    .error "Missing Coinbase API credentials."
  else
    .ok { eth_history := [], btc_history := [], total_profit_loss := 0 }

/-- How `main` ends its startup phase: `CoinbaseTrader()` is
constructed before `main`'s `try`, so a `ValueError` from `__init__`
propagates uncaught out of `main` and the interpreter terminates the
process with a nonzero exit status before the `while True` loop is
reached; otherwise the loop is entered with the fresh state. -/
inductive StartupOutcome where
  | startupFailure (msg : String)
  | loopEntered (st : TraderState)
deriving DecidableEq, Repr

/-- The startup phase of `main`: construct the trader; on construction
failure the exception escapes (nonzero process exit, loop never
entered), on success the trading loop starts from the fresh state. -/
def main_startup (key secret passphrase : Option String) : StartupOutcome :=
  match CoinbaseTrader_init key secret passphrase with
  | .error msg => .startupFailure msg
  | .ok st => .loopEntered st

/-- The external world of one `run_trading_cycle` call: the platform
test `platform.system() == 'Windows'`, the outcome of the initial
`get_current_prices` fetch, the outcome of `get_account_balances`
(one balances snapshot serves every read in the cycle), and the
executor's two externals. -/
structure CycleEnv where
  isWindows : Bool
  fetch1 : Except String (Nat × ℚ × ℚ)
  balancesResult : Except String Balances
  place : OrderRequest → Except String Order
  fetch2 : Except String (Nat × ℚ × ℚ)

/-- What one cycle did: whether `analyze_market` ran, whether
`can_trade` was evaluated, whether `execute_trade` ran, whether the
end-of-cycle report (pygame display or console table) was produced,
and the exception message caught by the cycle's catch-all handler, if
any. -/
structure CycleTrace where
  analysisRan : Bool
  canTradeChecked : Bool
  executeRan : Bool
  reportShown : Bool
  caughtError : Option String
deriving DecidableEq, Repr

/-- `run_trading_cycle`.  Everything happens inside one `try`; any
exception is caught at the bottom and logged.  Steps, in source order:
`get_current_prices` (appends to the histories), `get_account_balances`,
then the slice `self.price_history['ETH-EUR'][-NUM_PRICE_POINTS:]` —
`NUM_PRICE_POINTS` is defined only inside the module's
Windows-only block, so on any other platform this line raises
`NameError` before `analyze_market`, `can_trade` or `execute_trade`
can run.  On Windows the cycle continues: analyze, conditionally
trade (`if analysis and self.can_trade()`, so `can_trade` is evaluated
only when the analysis is not `None`), then the pygame display — which
subscripts `analysis['signal']` and raises `TypeError` when the
analysis is `None`. -/
def run_trading_cycle (env : CycleEnv) (st : TraderState) :
    CycleTrace × TraderState :=
  match env.fetch1 with
  | .error e => (⟨false, false, false, false, some e⟩, st)
  | .ok (ts, ethPrice, btcPrice) =>
    let st1 := recordPrices st ts ethPrice btcPrice
    match env.balancesResult with
    | .error e => (⟨false, false, false, false, some e⟩, st1)
    | .ok balances =>
      if env.isWindows then
        match analyze_market st1 with
        | some a =>
          if can_trade balances then
            let r := execute_trade st1 a.signal balances env.place env.fetch2
            (⟨true, true, true, true, none⟩, r.2.1)
          else
            (⟨true, true, false, true, none⟩, st1)
        | none =>
          (⟨true, false, false, false, some "TypeError: NoneType is not subscriptable"⟩, st1)
      else
        (⟨false, false, false, false,
          some "NameError: name NUM_PRICE_POINTS is not defined"⟩, st1)

/-- The ETH-EUR sample recorded by one fetch step `(ts, eth, btc)`. -/
def ethSample (s : Nat × ℚ × ℚ) : PriceSample := ⟨s.1, s.2.1⟩

/-- The BTC-EUR sample recorded by one fetch step `(ts, eth, btc)`. -/
def btcSample (s : Nat × ℚ × ℚ) : PriceSample := ⟨s.1, s.2.2⟩

/-- A run of successful `get_current_prices` calls: fold the
history-recording step over the list of fetched `(ts, eth, btc)`
triples. -/
def runRecording (st : TraderState) (steps : List (Nat × ℚ × ℚ)) :
    TraderState :=
  steps.foldl (fun acc s => recordPrices acc s.1 s.2.1 s.2.2) st

/-- The arithmetic mean of the trailing `MOVING_AVG_SHORT` recorded
ETH-EUR prices: sum of the trailing window divided by the window's
actual length (the spec-side notion of "mean of the trailing
short-window prices"). -/
def shortMean (st : TraderState) : ℚ :=
  (takeLast MOVING_AVG_SHORT (st.eth_history.map fun s => s.price)).sum
    / ((takeLast MOVING_AVG_SHORT (st.eth_history.map fun s => s.price)).length : ℚ)

/-- The arithmetic mean of the trailing `MOVING_AVG_LONG` recorded
ETH-EUR prices. -/
def longMean (st : TraderState) : ℚ :=
  (takeLast MOVING_AVG_LONG (st.eth_history.map fun s => s.price)).sum
    / ((takeLast MOVING_AVG_LONG (st.eth_history.map fun s => s.price)).length : ℚ)

/-- The full claim-C1 contract of `analyze_market` on a sufficiently
long history: a signal among BUY/SELL/HOLD, BUY iff the trailing
short-window mean strictly exceeds the trailing long-window mean, SELL
iff it is strictly below, HOLD iff they are exactly equal, and the
returned record carries both means and the most recent price. -/
def AnalysisSpec (st : TraderState) : Prop :=
  ∃ a : Analysis, analyze_market st = some a ∧
    (a.signal = "BUY" ∨ a.signal = "SELL" ∨ a.signal = "HOLD") ∧
    (a.signal = "BUY" ↔ shortMean st > longMean st) ∧
    (a.signal = "SELL" ↔ shortMean st < longMean st) ∧
    (a.signal = "HOLD" ↔ shortMean st = longMean st) ∧
    a.short_ma = shortMean st ∧
    a.long_ma = longMean st ∧
    (st.eth_history.map fun s => s.price).getLast? = some a.current_price

/-- A concrete 26-sample ascending ETH-EUR history (3000, 3010, …,
3250): the spec's BUY scenario. -/
def stC1 : TraderState :=
  ⟨(List.range 26).map (fun i => ⟨i, 3000 + 10 * (i : ℚ)⟩), [], 0⟩

/-- The claim-C2 contract of `execute_trade`'s decision (the order
request it issues): a BUY request committing exactly
`available_EUR * TRADE_PERCENTAGE` when the signal is BUY and the
available EUR exceeds `MIN_EUR_TRADE`; a SELL request committing
exactly `available_ETH * TRADE_PERCENTAGE` when the signal is SELL and
the available ETH exceeds `MIN_ETH_TRADE`; no request otherwise — so a
non-NONE decision implies its triggering balance condition. -/
def DecisionSpec (st : TraderState) (signal : String) (balances : Balances)
    (place : OrderRequest → Except String Order)
    (fetch : Except String (Nat × ℚ × ℚ)) : Prop :=
  (signal = "BUY" ∧ availEUR balances > MIN_EUR_TRADE →
    (execute_trade st signal balances place fetch).2.2
      = some (.buy (availEUR balances * TRADE_PERCENTAGE))) ∧
  (signal = "SELL" ∧ availETH balances > MIN_ETH_TRADE →
    (execute_trade st signal balances place fetch).2.2
      = some (.sell (availETH balances * TRADE_PERCENTAGE))) ∧
  (∀ f, (execute_trade st signal balances place fetch).2.2 = some (.buy f) →
    signal = "BUY" ∧ availEUR balances > MIN_EUR_TRADE ∧
      f = availEUR balances * TRADE_PERCENTAGE) ∧
  (∀ q, (execute_trade st signal balances place fetch).2.2 = some (.sell q) →
    signal = "SELL" ∧ availETH balances > MIN_ETH_TRADE ∧
      q = availETH balances * TRADE_PERCENTAGE) ∧
  (¬(signal = "BUY" ∧ availEUR balances > MIN_EUR_TRADE) →
    ¬(signal = "SELL" ∧ availETH balances > MIN_ETH_TRADE) →
    (execute_trade st signal balances place fetch).2.2 = none ∧
      (execute_trade st signal balances place fetch).1 = none)

end Trader

namespace Trader

theorem takeLast_length {α : Type} (n : Nat) (l : List α) :
    (takeLast n l).length = min n l.length := by
  simp [takeLast]
  omega

theorem takeLast_of_length_le {α : Type} {n : Nat} {l : List α}
    (h : l.length ≤ n) : takeLast n l = l := by
  unfold takeLast
  have : l.length - n = 0 := by omega
  rw [this, List.drop_zero]

theorem takeLast_append_singleton {α : Type} {n : Nat} (hn : 1 ≤ n)
    (l : List α) (x : α) :
    takeLast n (l ++ [x]) = takeLast (n - 1) l ++ [x] := by
  unfold takeLast
  have hle : l.length + 1 - n ≤ l.length := by omega
  rw [List.length_append]
  simp only [List.length_singleton]
  rw [List.drop_append_of_le_length hle]
  have : l.length + 1 - n = l.length - (n - 1) := by omega
  rw [this]

theorem takeLast_takeLast {α : Type} {m n : Nat} (h : m ≤ n) (l : List α) :
    takeLast m (takeLast n l) = takeLast m l := by
  unfold takeLast
  rw [List.drop_drop, List.length_drop]
  congr 1
  omega

theorem recordPrices_total_profit_loss (st : TraderState) (ts : Nat)
    (pe pb : ℚ) :
    (recordPrices st ts pe pb).total_profit_loss = st.total_profit_loss := by
  unfold recordPrices
  dsimp only
  split <;> rfl

theorem recordPrices_def (st : TraderState) (ts : Nat) (pe pb : ℚ) :
    recordPrices st ts pe pb =
      if (st.eth_history ++ [(⟨ts, pe⟩ : PriceSample)]).length > max_history then
        { st with
          eth_history := takeLast max_history (st.eth_history ++ [⟨ts, pe⟩])
          btc_history := takeLast max_history (st.btc_history ++ [⟨ts, pb⟩]) }
      else
        { st with
          eth_history := st.eth_history ++ [⟨ts, pe⟩]
          btc_history := st.btc_history ++ [⟨ts, pb⟩] } := rfl

theorem recordPrices_history {l m : List PriceSample}
    (hlm : l.length = m.length) {st : TraderState}
    (he : st.eth_history = takeLast max_history l)
    (hb : st.btc_history = takeLast max_history m) (ts : Nat) (pe pb : ℚ) :
    (recordPrices st ts pe pb).eth_history
        = takeLast max_history (l ++ [⟨ts, pe⟩]) ∧
      (recordPrices st ts pe pb).btc_history
        = takeLast max_history (m ++ [⟨ts, pb⟩]) := by
  have h1 : (1 : Nat) ≤ max_history := by decide
  have h2 : max_history - 1 ≤ max_history := by omega
  have hlen : st.eth_history.length = min max_history l.length := by
    rw [he, takeLast_length]
  rw [recordPrices_def]
  by_cases hcond : (st.eth_history ++ [(⟨ts, pe⟩ : PriceSample)]).length > max_history
  · rw [if_pos hcond]
    constructor
    · dsimp only
      rw [he, takeLast_append_singleton h1, takeLast_takeLast h2,
        takeLast_append_singleton h1]
    · dsimp only
      rw [hb, takeLast_append_singleton h1, takeLast_takeLast h2,
        takeLast_append_singleton h1]
  · rw [if_neg hcond]
    have hsmall : l.length < max_history := by
      rw [List.length_append, List.length_singleton] at hcond
      omega
    have hel : st.eth_history = l := by
      rw [he, takeLast_of_length_le (le_of_lt hsmall)]
    have hbm : st.btc_history = m := by
      rw [hb, takeLast_of_length_le (le_of_lt (by omega))]
    constructor
    · dsimp only
      rw [hel, takeLast_of_length_le (by rw [List.length_append, List.length_singleton]; omega)]
    · dsimp only
      rw [hbm, takeLast_of_length_le (by rw [List.length_append, List.length_singleton]; omega)]

theorem runRecording_history (steps : List (Nat × ℚ × ℚ)) :
    ∀ (st : TraderState) (l m : List PriceSample), l.length = m.length →
      st.eth_history = takeLast max_history l →
      st.btc_history = takeLast max_history m →
      (runRecording st steps).eth_history
          = takeLast max_history (l ++ steps.map ethSample) ∧
        (runRecording st steps).btc_history
          = takeLast max_history (m ++ steps.map btcSample) := by
  induction steps with
  | nil =>
    intro st l m hlm he hb
    simpa [runRecording] using ⟨he, hb⟩
  | cons s rest ih =>
    intro st l m hlm he hb
    have hstep := recordPrices_history hlm he hb s.1 s.2.1 s.2.2
    have hrec := ih (recordPrices st s.1 s.2.1 s.2.2)
      (l ++ [ethSample s]) (m ++ [btcSample s])
      (by simp [hlm]) hstep.1 hstep.2
    have hfold : runRecording st (s :: rest)
        = runRecording (recordPrices st s.1 s.2.1 s.2.2) rest := rfl
    rw [hfold]
    simpa [List.append_assoc] using hrec

/-- After any sequence of recording steps starting from the freshly
initialized trader, each pair's history is exactly the suffix of the
most recent `max_history` (= 31) recorded samples, in original time
order — in particular each history holds at most 31 samples
(claim C4). -/
theorem price_history_bounded (steps : List (Nat × ℚ × ℚ)) :
    (runRecording ⟨[], [], 0⟩ steps).eth_history
        = takeLast max_history (steps.map ethSample) ∧
      (runRecording ⟨[], [], 0⟩ steps).btc_history
        = takeLast max_history (steps.map btcSample) ∧
      (runRecording ⟨[], [], 0⟩ steps).eth_history.length ≤ max_history ∧
      (runRecording ⟨[], [], 0⟩ steps).btc_history.length ≤ max_history ∧
      (runRecording ⟨[], [], 0⟩ steps).eth_history <:+ steps.map ethSample ∧
      (runRecording ⟨[], [], 0⟩ steps).btc_history <:+ steps.map btcSample := by
  obtain ⟨he, hb⟩ := runRecording_history steps ⟨[], [], 0⟩ [] [] rfl rfl rfl
  simp only [List.nil_append] at he hb
  refine ⟨he, hb, ?_, ?_, ?_, ?_⟩
  · rw [he, takeLast_length]; omega
  · rw [hb, takeLast_length]; omega
  · rw [he]; exact List.drop_suffix _ _
  · rw [hb]; exact List.drop_suffix _ _

/-- `analyze_market` returns `None` whenever the ETH-EUR history is
shorter than `MOVING_AVG_LONG`, whatever the prices are (claim C3). -/
theorem analyze_market_insufficient_data (st : TraderState)
    (h : st.eth_history.length < MOVING_AVG_LONG) :
    analyze_market st = none := by
  unfold analyze_market
  simp [h]

/-- Witness for C3: the freshly initialized empty history is
insufficient. -/
theorem analyze_market_insufficient_data_witness :
    analyze_market ⟨[], [], 0⟩ = none :=
  analyze_market_insufficient_data ⟨[], [], 0⟩ (by decide)

theorem shortMean_eq (st : TraderState)
    (h : MOVING_AVG_SHORT ≤ st.eth_history.length) :
    shortMean st
      = (takeLast MOVING_AVG_SHORT (st.eth_history.map fun s => s.price)).sum
          / (MOVING_AVG_SHORT : ℚ) := by
  unfold shortMean
  have hlen : (takeLast MOVING_AVG_SHORT
      (st.eth_history.map fun s => s.price)).length = MOVING_AVG_SHORT := by
    rw [takeLast_length, List.length_map]
    omega
  rw [hlen]

theorem longMean_eq (st : TraderState)
    (h : MOVING_AVG_LONG ≤ st.eth_history.length) :
    longMean st
      = (takeLast MOVING_AVG_LONG (st.eth_history.map fun s => s.price)).sum
          / (MOVING_AVG_LONG : ℚ) := by
  unfold longMean
  have hlen : (takeLast MOVING_AVG_LONG
      (st.eth_history.map fun s => s.price)).length = MOVING_AVG_LONG := by
    rw [takeLast_length, List.length_map]
    omega
  rw [hlen]

/-- `can_trade` returns `true` exactly when the available EUR balance
strictly exceeds `MIN_EUR_TRADE` or the available ETH balance strictly
exceeds `MIN_ETH_TRADE` (claim C7). -/
theorem can_trade_iff (balances : Balances) :
    can_trade balances = true ↔
      (availEUR balances > MIN_EUR_TRADE ∨ availETH balances > MIN_ETH_TRADE) := by
  simp [can_trade]

/-- On a history of at least `MOVING_AVG_LONG` samples,
`analyze_market` returns a signal that is exactly one of BUY, SELL,
HOLD; it is BUY iff the trailing short-window mean strictly exceeds
the trailing long-window mean, SELL iff strictly below, HOLD iff the
two means are exactly equal; the result also carries both means and
the most recent recorded price (claim C1). -/
theorem analyze_market_crossover (st : TraderState)
    (h : MOVING_AVG_LONG ≤ st.eth_history.length) : AnalysisSpec st := by
  have h1226 : MOVING_AVG_SHORT ≤ MOVING_AVG_LONG := by decide
  have hS := shortMean_eq st (by omega)
  have hL := longMean_eq st h
  have hnot : ¬ st.eth_history.length < MOVING_AVG_LONG := not_lt.2 h
  have hmaplen : (st.eth_history.map fun s => s.price).length
      = st.eth_history.length := List.length_map _ _
  have hpos : 0 < MOVING_AVG_LONG := by decide
  have hne : (st.eth_history.map fun s => s.price) ≠ [] := by
    intro hc
    rw [hc] at hmaplen
    simp at hmaplen
    omega
  obtain ⟨p, hp⟩ : ∃ p, (st.eth_history.map fun s => s.price).getLast? = some p := by
    cases hgl : (st.eth_history.map fun s => s.price).getLast? with
    | none => exact absurd (List.getLast?_eq_none_iff.mp hgl) hne
    | some q => exact ⟨q, rfl⟩
  have hSB : ("SELL" : String) ≠ "BUY" := by decide
  have hSH : ("SELL" : String) ≠ "HOLD" := by decide
  have hHB : ("HOLD" : String) ≠ "BUY" := by decide
  have hHS : ("HOLD" : String) ≠ "SELL" := by decide
  have hBS : ("BUY" : String) ≠ "SELL" := by decide
  have hBH : ("BUY" : String) ≠ "HOLD" := by decide
  have hAM : analyze_market st
      = some ⟨if shortMean st > longMean st then "BUY"
              else if shortMean st < longMean st then "SELL" else "HOLD",
              shortMean st, longMean st, p⟩ := by
    unfold analyze_market
    rw [if_neg hnot]
    dsimp only
    rw [hp, hS, hL]
    rfl
  rcases lt_trichotomy (shortMean st) (longMean st) with hlt | heq | hgt
  · have hsig : (if shortMean st > longMean st then "BUY"
        else if shortMean st < longMean st then "SELL" else "HOLD") = "SELL" := by
      rw [if_neg (asymm hlt), if_pos hlt]
    rw [hsig] at hAM
    refine ⟨_, hAM, Or.inr (Or.inl rfl), ?_, ?_, ?_, rfl, rfl, hp⟩
    · exact ⟨fun hx => absurd hx hSB, fun hx => absurd hx (asymm hlt)⟩
    · exact ⟨fun _ => hlt, fun _ => rfl⟩
    · exact ⟨fun hx => absurd hx hSH, fun hx => absurd hx (ne_of_lt hlt)⟩
  · have hsig : (if shortMean st > longMean st then "BUY"
        else if shortMean st < longMean st then "SELL" else "HOLD") = "HOLD" := by
      rw [if_neg (by rw [heq]; exact lt_irrefl _), if_neg (by rw [heq]; exact lt_irrefl _)]
    rw [hsig] at hAM
    refine ⟨_, hAM, Or.inr (Or.inr rfl), ?_, ?_, ?_, rfl, rfl, hp⟩
    · exact ⟨fun hx => absurd hx hHB, fun hx => absurd (heq ▸ hx) (lt_irrefl _)⟩
    · exact ⟨fun hx => absurd hx hHS, fun hx => absurd (heq ▸ hx) (lt_irrefl _)⟩
    · exact ⟨fun _ => heq, fun _ => rfl⟩
  · have hsig : (if shortMean st > longMean st then "BUY"
        else if shortMean st < longMean st then "SELL" else "HOLD") = "BUY" := by
      rw [if_pos hgt]
    rw [hsig] at hAM
    refine ⟨_, hAM, Or.inl rfl, ?_, ?_, ?_, rfl, rfl, hp⟩
    · exact ⟨fun _ => hgt, fun _ => rfl⟩
    · exact ⟨fun hx => absurd hx hBS, fun hx => absurd hx (asymm hgt)⟩
    · exact ⟨fun hx => absurd hx hBH, fun hx => absurd hx (ne_of_gt hgt)⟩

/-- Witness for C1: the spec's ascending 26-price scenario satisfies
the crossover contract. -/
theorem analyze_market_crossover_witness : AnalysisSpec stC1 :=
  analyze_market_crossover stC1 (by decide)

theorem execute_trade_request (st : TraderState) (signal : String)
    (balances : Balances) (place : OrderRequest → Except String Order)
    (fetch : Except String (Nat × ℚ × ℚ)) :
    (execute_trade st signal balances place fetch).2.2
      = if signal = "BUY" ∧ availEUR balances > MIN_EUR_TRADE then
          some (.buy (availEUR balances * TRADE_PERCENTAGE))
        else if signal = "SELL" ∧ availETH balances > MIN_ETH_TRADE then
          some (.sell (availETH balances * TRADE_PERCENTAGE))
        else none := by
  unfold execute_trade
  by_cases h1 : signal = "BUY" ∧ availEUR balances > MIN_EUR_TRADE
  · rw [if_pos h1, if_pos h1]
    dsimp only
    cases place (.buy (availEUR balances * TRADE_PERCENTAGE)) <;> rfl
  · rw [if_neg h1, if_neg h1]
    by_cases h2 : signal = "SELL" ∧ availETH balances > MIN_ETH_TRADE
    · rw [if_pos h2, if_pos h2]
      dsimp only
      cases hpl : place (.sell (availETH balances * TRADE_PERCENTAGE)) with
      | error e => rfl
      | ok order =>
        cases fetch with
        | error e => rfl
        | ok t => rfl
    · rw [if_neg h2, if_neg h2]

theorem execute_trade_skip (st : TraderState) (signal : String)
    (balances : Balances) (place : OrderRequest → Except String Order)
    (fetch : Except String (Nat × ℚ × ℚ))
    (h1 : ¬(signal = "BUY" ∧ availEUR balances > MIN_EUR_TRADE))
    (h2 : ¬(signal = "SELL" ∧ availETH balances > MIN_ETH_TRADE)) :
    execute_trade st signal balances place fetch = (none, st, none) := by
  unfold execute_trade
  rw [if_neg h1, if_neg h2]

/-- The decision of `execute_trade` is exactly the one claim C2
states: BUY committing `available_EUR * TRADE_PERCENTAGE` iff the
signal is BUY and available EUR exceeds `MIN_EUR_TRADE`; SELL
committing `available_ETH * TRADE_PERCENTAGE` iff the signal is SELL
and available ETH exceeds `MIN_ETH_TRADE`; no order request (and a
`None` return) in every other case. -/
theorem execute_trade_decision (st : TraderState) (signal : String)
    (balances : Balances) (place : OrderRequest → Except String Order)
    (fetch : Except String (Nat × ℚ × ℚ)) :
    DecisionSpec st signal balances place fetch := by
  have hreq := execute_trade_request st signal balances place fetch
  unfold DecisionSpec
  by_cases h1 : signal = "BUY" ∧ availEUR balances > MIN_EUR_TRADE
  · rw [if_pos h1] at hreq
    refine ⟨fun _ => hreq, ?_, ?_, ?_, fun hn => absurd h1 hn⟩
    · rintro ⟨hs, -⟩
      exact absurd (h1.1.symm.trans hs) (by decide)
    · intro f hf
      rw [hreq] at hf
      simp only [Option.some.injEq, OrderRequest.buy.injEq] at hf
      exact ⟨h1.1, h1.2, hf.symm⟩
    · intro q hq
      rw [hreq] at hq
      simp at hq
  · rw [if_neg h1] at hreq
    by_cases h2 : signal = "SELL" ∧ availETH balances > MIN_ETH_TRADE
    · rw [if_pos h2] at hreq
      refine ⟨fun hb => absurd hb h1, fun _ => hreq, ?_, ?_, fun _ hn => absurd h2 hn⟩
      · intro f hf
        rw [hreq] at hf
        simp at hf
      · intro q hq
        rw [hreq] at hq
        simp only [Option.some.injEq, OrderRequest.sell.injEq] at hq
        exact ⟨h2.1, h2.2, hq.symm⟩
    · rw [if_neg h2] at hreq
      have hskip := execute_trade_skip st signal balances place fetch h1 h2
      refine ⟨fun hb => absurd hb h1, fun hs => absurd hs h2, ?_, ?_, fun _ _ => ?_⟩
      · intro f hf
        rw [hreq] at hf
        exact Option.noConfusion hf
      · intro q hq
        rw [hreq] at hq
        exact Option.noConfusion hq
      · rw [hskip]
        exact ⟨rfl, rfl⟩

/-- Witness for C2: with 100 EUR available and a BUY signal, the
issued request is a market buy of `100 * 0.9` EUR worth. -/
theorem execute_trade_decision_witness :
    (execute_trade ⟨[], [], 0⟩ "BUY" ⟨some ⟨100, 100⟩, none, none⟩
        (fun _ => Except.error "down") (Except.error "down")).2.2
      = some (.buy (availEUR ⟨some ⟨100, 100⟩, none, none⟩ * TRADE_PERCENTAGE)) :=
  (execute_trade_decision ⟨[], [], 0⟩ "BUY" ⟨some ⟨100, 100⟩, none, none⟩
    (fun _ => Except.error "down") (Except.error "down")).1
    ⟨rfl, by norm_num [availEUR, MIN_EUR_TRADE]⟩

/-- On any order-placement failure (the external call raising),
`execute_trade` returns `None` with the trader state — profit/loss and
both histories — unchanged; the exception is caught inside the
function, so in this model the function still returns normally
(claim C6). -/
theorem execute_trade_placement_failure (st : TraderState) (signal : String)
    (balances : Balances) (fetch : Except String (Nat × ℚ × ℚ))
    (place : OrderRequest → Except String Order)
    (hfail : ∀ req, ∃ msg, place req = Except.error msg) :
    (execute_trade st signal balances place fetch).1 = none ∧
      (execute_trade st signal balances place fetch).2.1 = st := by
  unfold execute_trade
  by_cases h1 : signal = "BUY" ∧ availEUR balances > MIN_EUR_TRADE
  · rw [if_pos h1]
    dsimp only
    obtain ⟨msg, hmsg⟩ := hfail (.buy (availEUR balances * TRADE_PERCENTAGE))
    rw [hmsg]
    exact ⟨rfl, rfl⟩
  · rw [if_neg h1]
    by_cases h2 : signal = "SELL" ∧ availETH balances > MIN_ETH_TRADE
    · rw [if_pos h2]
      dsimp only
      obtain ⟨msg, hmsg⟩ := hfail (.sell (availETH balances * TRADE_PERCENTAGE))
      rw [hmsg]
      exact ⟨rfl, rfl⟩
    · rw [if_neg h2]
      exact ⟨rfl, rfl⟩

/-- Witness for C6: a SELL signal with ample ETH against an exchange
whose placement call always raises yields no order and leaves the
state untouched. -/
theorem execute_trade_placement_failure_witness :
    (execute_trade ⟨[], [], 7⟩ "SELL" ⟨none, some ⟨2, 2⟩, none⟩
        (fun _ => Except.error "boom") (Except.error "x")).1 = none ∧
      (execute_trade ⟨[], [], 7⟩ "SELL" ⟨none, some ⟨2, 2⟩, none⟩
        (fun _ => Except.error "boom") (Except.error "x")).2.1 = ⟨[], [], 7⟩ :=
  execute_trade_placement_failure ⟨[], [], 7⟩ "SELL" ⟨none, some ⟨2, 2⟩, none⟩
    (Except.error "x") (fun _ => Except.error "boom")
    (fun _ => ⟨"boom", rfl⟩)

/-- `total_profit_loss` lifecycle (claim C5): it is 0 at construction;
`execute_trade` with a BUY signal never changes it (the update in the
buy branch sits after `return order` and is unreachable); a successful
SELL with a successful post-trade price fetch adds
`eth_to_sell * fetched_price`; and no other path changes it. -/
theorem total_profit_loss_lifecycle :
    (∀ k s p st, CoinbaseTrader_init k s p = Except.ok st →
      st.total_profit_loss = 0) ∧
    (∀ st balances place fetch,
      (execute_trade st "BUY" balances place fetch).2.1.total_profit_loss
        = st.total_profit_loss) ∧
    (∀ st balances place fetch order ts pe pb,
      availETH balances > MIN_ETH_TRADE →
      place (.sell (availETH balances * TRADE_PERCENTAGE)) = Except.ok order →
      fetch = Except.ok (ts, pe, pb) →
      (execute_trade st "SELL" balances place fetch).2.1.total_profit_loss
        = st.total_profit_loss + availETH balances * TRADE_PERCENTAGE * pe) ∧
    (∀ st signal balances place fetch,
      (execute_trade st signal balances place fetch).2.1.total_profit_loss
          = st.total_profit_loss ∨
        ∃ order ts pe pb, signal = "SELL" ∧
          availETH balances > MIN_ETH_TRADE ∧
          place (.sell (availETH balances * TRADE_PERCENTAGE)) = Except.ok order ∧
          fetch = Except.ok (ts, pe, pb) ∧
          (execute_trade st signal balances place fetch).2.1.total_profit_loss
            = st.total_profit_loss + availETH balances * TRADE_PERCENTAGE * pe) := by
  have hsell : ∀ (st : TraderState) (balances : Balances)
      (place : OrderRequest → Except String Order) (order : Order)
      (ts : Nat) (pe pb : ℚ),
      availETH balances > MIN_ETH_TRADE →
      place (.sell (availETH balances * TRADE_PERCENTAGE)) = Except.ok order →
      (execute_trade st "SELL" balances place (Except.ok (ts, pe, pb))).2.1.total_profit_loss
        = st.total_profit_loss + availETH balances * TRADE_PERCENTAGE * pe := by
    intro st balances place order ts pe pb hq hpl
    unfold execute_trade
    rw [if_neg (fun hh => absurd hh.1 (by decide)), if_pos ⟨rfl, hq⟩]
    dsimp only
    rw [hpl]
    dsimp only
    rw [recordPrices_total_profit_loss]
  refine ⟨?_, ?_, ?_, ?_⟩
  · intro k s p st h
    unfold CoinbaseTrader_init at h
    split at h
    · exact Except.noConfusion h
    · injection h with h2
      rw [← h2]
  · intro st balances place fetch
    unfold execute_trade
    by_cases hb : availEUR balances > MIN_EUR_TRADE
    · rw [if_pos ⟨rfl, hb⟩]
      dsimp only
      cases place (.buy (availEUR balances * TRADE_PERCENTAGE)) <;> rfl
    · rw [if_neg (fun hh => hb hh.2),
        if_neg (fun hh => absurd hh.1 (by decide))]
  · intro st balances place fetch order ts pe pb hq hpl hf
    rw [hf]
    exact hsell st balances place order ts pe pb hq hpl
  · intro st signal balances place fetch
    by_cases h1 : signal = "BUY" ∧ availEUR balances > MIN_EUR_TRADE
    · left
      unfold execute_trade
      rw [if_pos h1]
      dsimp only
      cases place (.buy (availEUR balances * TRADE_PERCENTAGE)) <;> rfl
    · by_cases h2 : signal = "SELL" ∧ availETH balances > MIN_ETH_TRADE
      · cases hpl : place (.sell (availETH balances * TRADE_PERCENTAGE)) with
        | error e =>
          left
          unfold execute_trade
          rw [if_neg h1, if_pos h2]
          dsimp only
          rw [hpl]
        | ok order =>
          cases hf : fetch with
          | error e =>
            left
            unfold execute_trade
            rw [if_neg h1, if_pos h2]
            dsimp only
            rw [hpl]
          | ok t =>
            obtain ⟨ts, pe, pb⟩ := t
            right
            refine ⟨order, ts, pe, pb, h2.1, h2.2, rfl, rfl, ?_⟩
            rw [h2.1]
            exact hsell st balances place order ts pe pb h2.2 hpl
      · left
        rw [execute_trade_skip st signal balances place fetch h1 h2]

/-- Witness for C5: a successful SELL of `2 * 0.9` ETH at a fetched
price of 1000 adds `1.8 * 1000` to a starting profit/loss of 7. -/
theorem total_profit_loss_lifecycle_witness :
    (execute_trade ⟨[], [], 7⟩ "SELL" ⟨none, some ⟨2, 2⟩, none⟩
        (fun _ => Except.ok ⟨1⟩) (Except.ok (5, 1000, 900))).2.1.total_profit_loss
      = (7 : ℚ) + availETH ⟨none, some ⟨2, 2⟩, none⟩ * TRADE_PERCENTAGE * 1000 :=
  total_profit_loss_lifecycle.2.2.1 ⟨[], [], 7⟩ ⟨none, some ⟨2, 2⟩, none⟩
    (fun _ => Except.ok ⟨1⟩) (Except.ok (5, 1000, 900)) ⟨1⟩ 5 1000 900
    (by norm_num [availETH, MIN_ETH_TRADE]) rfl rfl

/-- `analyze_market` is a pure, deterministic function of the recorded
ETH-EUR price history: two states with one and the same history (and
arbitrary other fields) analyze identically, so a second call on an
unmodified history returns the same output; the method mutates
nothing, which the embedding reflects by taking the state as a
read-only argument (claim C8). -/
theorem analyze_market_deterministic (st₁ st₂ : TraderState)
    (h : st₁.eth_history = st₂.eth_history) :
    analyze_market st₁ = analyze_market st₂ := by
  unfold analyze_market
  rw [h]

/-- Witness for C8: same history, different BTC history and
profit/loss, identical analysis. -/
theorem analyze_market_deterministic_witness :
    analyze_market ⟨[⟨0, 5⟩], [], 0⟩ = analyze_market ⟨[⟨0, 5⟩], [⟨0, 1⟩], 42⟩ :=
  analyze_market_deterministic ⟨[⟨0, 5⟩], [], 0⟩ ⟨[⟨0, 5⟩], [⟨0, 1⟩], 42⟩ rfl

/-- Startup behaviour (claim C9): with any credential missing,
construction raises and the failure escapes `main` before the trading
loop (nonzero process exit); with all credentials present (set to
non-empty values), the loop is entered with empty histories and zero
profit/loss. -/
theorem startup_credentials :
    (∀ k s p, (k = none ∨ s = none ∨ p = none) →
      ∃ msg, main_startup k s p = .startupFailure msg) ∧
    (∀ kv sv pv : String, kv ≠ "" → sv ≠ "" → pv ≠ "" →
      main_startup (some kv) (some sv) (some pv)
        = .loopEntered ⟨[], [], 0⟩) := by
  constructor
  · intro k s p hmiss
    refine ⟨"Missing Coinbase API credentials.", ?_⟩
    have hfalse : (pyTruthy k && pyTruthy s && pyTruthy p) = false := by
      rcases hmiss with h | h | h <;> subst h <;> simp [pyTruthy]
    have hinit : CoinbaseTrader_init k s p
        = Except.error "Missing Coinbase API credentials." := by
      unfold CoinbaseTrader_init
      rw [hfalse]
      rfl
    unfold main_startup
    rw [hinit]
  · intro kv sv pv hk hs hp
    have htrue : (pyTruthy (some kv) && pyTruthy (some sv) && pyTruthy (some pv))
        = true := by
      simp [pyTruthy, hk, hs, hp]
    have hinit : CoinbaseTrader_init (some kv) (some sv) (some pv)
        = Except.ok ⟨[], [], 0⟩ := by
      unfold CoinbaseTrader_init
      rw [htrue]
      rfl
    unfold main_startup
    rw [hinit]

/-- Witness for C9: all-missing credentials fail before the loop;
concrete non-empty credentials enter the loop with the zeroed state. -/
theorem startup_credentials_witness :
    (∃ msg, main_startup none none none = .startupFailure msg) ∧
      main_startup (some "k") (some "s") (some "p")
        = .loopEntered ⟨[], [], 0⟩ :=
  ⟨startup_credentials.1 none none none (Or.inl rfl),
    startup_credentials.2 "k" "s" "p" (by decide) (by decide) (by decide)⟩

/-- On any platform other than Windows, `run_trading_cycle` never runs
`analyze_market`, `can_trade` or `execute_trade` and never produces
the report; when the initial price fetch and the balance fetch
succeed, the cycle's catch-all handler catches precisely the
`NameError` raised at the `NUM_PRICE_POINTS` reference (claim C10). -/
theorem run_trading_cycle_non_windows (env : CycleEnv) (st : TraderState)
    (hwin : env.isWindows = false) :
    ((run_trading_cycle env st).1.analysisRan = false ∧
      (run_trading_cycle env st).1.canTradeChecked = false ∧
      (run_trading_cycle env st).1.executeRan = false ∧
      (run_trading_cycle env st).1.reportShown = false) ∧
    (∀ ts pe pb balances, env.fetch1 = Except.ok (ts, pe, pb) →
      env.balancesResult = Except.ok balances →
      (run_trading_cycle env st).1.caughtError
        = some "NameError: name NUM_PRICE_POINTS is not defined") := by
  unfold run_trading_cycle
  cases hf : env.fetch1 with
  | error e =>
    refine ⟨⟨rfl, rfl, rfl, rfl⟩, ?_⟩
    intro ts pe pb balances h1 _
    exact Except.noConfusion h1
  | ok t =>
    obtain ⟨ts0, pe0, pb0⟩ := t
    cases hb : env.balancesResult with
    | error e =>
      refine ⟨⟨rfl, rfl, rfl, rfl⟩, ?_⟩
      intro ts pe pb balances _ h2
      exact Except.noConfusion h2
    | ok balances0 =>
      rw [hwin]
      exact ⟨⟨rfl, rfl, rfl, rfl⟩, fun _ _ _ _ _ _ => rfl⟩

/-- Witness for C10: a concrete non-Windows environment with
successful fetches: nothing downstream runs and the `NameError` is the
caught error. -/
theorem run_trading_cycle_non_windows_witness :
    ((run_trading_cycle ⟨false, Except.ok (0, 1, 1), Except.ok ⟨none, none, none⟩,
        fun _ => Except.error "e", Except.error "e"⟩ ⟨[], [], 0⟩).1.analysisRan = false ∧
      (run_trading_cycle ⟨false, Except.ok (0, 1, 1), Except.ok ⟨none, none, none⟩,
        fun _ => Except.error "e", Except.error "e"⟩ ⟨[], [], 0⟩).1.canTradeChecked = false ∧
      (run_trading_cycle ⟨false, Except.ok (0, 1, 1), Except.ok ⟨none, none, none⟩,
        fun _ => Except.error "e", Except.error "e"⟩ ⟨[], [], 0⟩).1.executeRan = false ∧
      (run_trading_cycle ⟨false, Except.ok (0, 1, 1), Except.ok ⟨none, none, none⟩,
        fun _ => Except.error "e", Except.error "e"⟩ ⟨[], [], 0⟩).1.reportShown = false) ∧
    (run_trading_cycle ⟨false, Except.ok (0, 1, 1), Except.ok ⟨none, none, none⟩,
        fun _ => Except.error "e", Except.error "e"⟩ ⟨[], [], 0⟩).1.caughtError
      = some "NameError: name NUM_PRICE_POINTS is not defined" :=
  ⟨(run_trading_cycle_non_windows _ _ rfl).1,
    (run_trading_cycle_non_windows _ _ rfl).2 0 1 1 ⟨none, none, none⟩ rfl rfl⟩

end Trader
